import Mathlib

/-!
Verification of the PlanningPokerUI client session logic.

The source is a single React component (`PlanningPokerApp`) that keeps a
local replica of one room, applies SignalR events to it, drives a
vote-visibility flag pair (`showVotesState`, `isVoting`) and orchestrates
join / vote / reveal / clear / leave / reconnect.  We embed that logic as
pure functions over an explicit state record.  The JS object
`Record<string, User>` is modelled as an association list keyed by the
participant id; remote invocations are recorded as an explicit call trace,
and the outcome of an awaited remote call is passed in as a boolean.
-/

namespace PlanningPoker

/-- A room participant, from the source `interface User` with fields
`id`, `name` and `vote: string | null`. -/
structure User where
  id : String
  name : String
  vote : Option String
deriving Repr, DecidableEq

/-- A room, from the source `interface Room` with fields `id` and
`users: Record<string, User>`; the record is modelled as an association
list keyed by participant id. -/
structure Room where
  id : String
  users : List (String × User)
deriving Repr, DecidableEq

/-- The `currentPage` component state, either the join form or the
poker table. -/
inductive Page where
  | createJoin
  | planningPoker
deriving Repr, DecidableEq

/-- The `useState` fields of `PlanningPokerApp`: `roomId`, `user`, `room`,
`hubConnection` (abstracted to whether a connection handle is held),
`selectedVote`, `error`, `isVoting`, `isLoading`, `showVotesState` and
`currentPage`. -/
structure AppState where
  roomId : Option String
  user : Option User
  room : Option Room
  hubConnected : Bool
  selectedVote : Option String
  error : Option String
  isVoting : Bool
  isLoading : Bool
  showVotes : Bool
  currentPage : Page
deriving Repr, DecidableEq

/-- The initial values of all `useState` hooks: everything empty,
`isVoting = true`, `showVotesState = false`, page is the join form. -/
def initialState : AppState :=
  { roomId := none, user := none, room := none, hubConnected := false,
    selectedVote := none, error := none, isVoting := true, isLoading := false,
    showVotes := false, currentPage := Page.createJoin }

/-- JS object indexing `users[k]` on the association-list model. -/
def recLookup : List (String × User) → String → Option User
  | [], _ => none
  | p :: l, k => if p.1 = k then some p.2 else recLookup l k

/-- JS spread merge `{...prev.users, ...incomingUsers}`: every key of the
patch takes the patch value, every other key keeps the base value. -/
def recordMerge (base patch : List (String × User)) : List (String × User) :=
  base.filter (fun p => (recLookup patch p.1).isNone) ++ patch

/-- JS `delete remainingUsers[userId]` on the association-list model. -/
def recordDelete : List (String × User) → String → List (String × User)
  | [], _ => []
  | p :: l, k => if p.1 = k then recordDelete l k else p :: recordDelete l k

/-- The `VoteReceived` replica update: if `users[userId]` exists, replace
that entry by `{...userToUpdate, vote}`; otherwise the event is logged and
the users object is returned unchanged. -/
def recordSetVote (l : List (String × User)) (k v : String) : List (String × User) :=
  match recLookup l k with
  | some _ =>
      l.map (fun p => if p.1 = k then (p.1, { p.2 with vote := some v }) else p)
  | none => l

/-- The `AllVotesCleared` loop: rebuild the users object with every vote
set to `null`, keeping every key and every other field. -/
def clearVotes (l : List (String × User)) : List (String × User) :=
  l.map (fun p => (p.1, { p.2 with vote := none }))

/-- The `UserJoined` room update: if no local room exists the incoming
data replaces it wholesale; otherwise the incoming partial room is merged
in, the locally known room id is kept (`id: correctRoomId`) and the users
objects are spread-merged. -/
def roomAfterUserJoined (updated : Room) : Option Room → Option Room
  | none => some updated
  | some prev => some { id := prev.id, users := recordMerge prev.users updated.users }

/-- Handler for `connection.on('UserJoined')`: functional `setRoom`
update plus `setError(null)`. -/
def userJoinedHandler (updated : Room) (s : AppState) : AppState :=
  { s with room := roomAfterUserJoined updated s.room, error := none }

/-- Handler for `connection.on('UserLeft')`: delete the entry for the
departed user id from the users object, if a room is held. -/
def userLeftHandler (userId : String) (s : AppState) : AppState :=
  { s with room := s.room.map (fun r => { r with users := recordDelete r.users userId }) }

/-- Handler for `connection.on('VoteReceived')`: set the vote of a known
user, drop the event for an unknown id; then `setError(null)`. -/
def voteReceivedHandler (userId vote : String) (s : AppState) : AppState :=
  { s with
      room := s.room.map (fun r => { r with users := recordSetVote r.users userId vote }),
      error := none }

/-- Handler for `connection.on('VotesRevealed')`: `setIsVoting(false)`,
`setShowVotesState(!showVotesState)`, `setError(null)`.  The closure is
registered once, inside `setupSignalR`, and `showVotesState` in it is the
plain render value captured at that registration (not a functional
updater), so every arrival writes the negation of that captured value,
`capturedShowVotes`, rather than toggling the current flag.  `isVoting`
is set to `false` on every arrival. -/
def votesRevealedHandler (capturedShowVotes : Bool) (s : AppState) : AppState :=
  { s with isVoting := false, showVotes := !capturedShowVotes, error := none }

/-- Handler for `connection.on('AllVotesCleared')`: clear every vote in
the replica, drop the local selection, `setIsVoting(true)`,
`setShowVotesState(false)`, `setError(null)`. -/
def allVotesClearedHandler (s : AppState) : AppState :=
  { s with
      room := s.room.map (fun r => { r with users := clearVotes r.users }),
      selectedVote := none, isVoting := true, showVotes := false, error := none }

/-- A remote operation invoked on the SignalR hub, or the transport stop
call; used to record which calls a controller action makes. -/
inductive RemoteCall where
  | joinRoom (roomId : String) (u : User)
  | sendVote (roomId userId value : String)
  | revealVotes (roomId : Option String)
  | clearAllVotes (roomId : String)
  | leaveRoom (roomId userId : String)
  | stopConnection
deriving Repr, DecidableEq

/-- `handleVote(vote)`: returns unchanged with no remote call unless
`roomId`, `user` and `hubConnection` are present and `isVoting` is true;
otherwise optimistically sets `selectedVote` and invokes `SendVote`.
`remoteOk` is the outcome of the awaited invoke: on failure the catch
block sets an error and rolls `selectedVote` back to `null`. -/
def handleVote (v : String) (remoteOk : Bool) (s : AppState) : AppState × List RemoteCall :=
  match s.roomId, s.user with
  | some r, some u =>
      if s.hubConnected && s.isVoting then
        if remoteOk then
          ({ s with selectedVote := some v }, [RemoteCall.sendVote r u.id v])
        else
          ({ s with selectedVote := none, error := some "Failed to send vote" },
           [RemoteCall.sendVote r u.id v])
      else (s, [])
  | _, _ => (s, [])

/-- `handleLeaveRoom`: if a connection is held, invoke `LeaveRoom` (when a
room and user are known) and then `stop`; any error there is caught and
only logged (when the `LeaveRoom` invoke throws, the `stop` call inside
the same try block is skipped), after which the state resets run
unconditionally.  The resets clear `roomId`, `user`, `room`,
`selectedVote` and `error`, set `isVoting` back to `true`, return to the
join page and drop the connection handle; `showVotesState` is not
touched. -/
def handleLeaveRoom (remoteOk : Bool) (s : AppState) : AppState × List RemoteCall :=
  let calls :=
    if s.hubConnected then
      match s.roomId, s.user with
      | some r, some u =>
          if remoteOk then [RemoteCall.leaveRoom r u.id, RemoteCall.stopConnection]
          else [RemoteCall.leaveRoom r u.id]
      | _, _ => [RemoteCall.stopConnection]
    else []
  ({ s with roomId := none, user := none, room := none, hubConnected := false,
            selectedVote := none, error := none, isVoting := true,
            currentPage := Page.createJoin, isLoading := false }, calls)

/-- `Object.values(room.users).every(u => u.vote === null)` from
`PlanningPokerPage`. -/
def allVotesNull (r : Room) : Bool :=
  r.users.all (fun p => p.2.vote.isNone)

/-- The `disabled` prop of the Reveal Votes button. -/
def revealVotesDisabled (r : Room) : Bool := allVotesNull r

/-- The `disabled` prop of the Clear All Votes button. -/
def clearVotesDisabled (r : Room) : Bool := allVotesNull r

/-- `handleRevealVotes`: invokes `RevealVotes` with the current room id
(which is not checked for presence) whenever a connection is held. -/
def handleRevealVotesCalls (s : AppState) : List RemoteCall :=
  if s.hubConnected then [RemoteCall.revealVotes s.roomId] else []

/-- `handleClearVotes`: returns without a call unless `roomId` and the
connection are present; otherwise invokes `ClearAllVotes`. -/
def handleClearVotesCalls (s : AppState) : List RemoteCall :=
  match s.roomId with
  | some r => if s.hubConnected then [RemoteCall.clearAllVotes r] else []
  | none => []

/-- Pressing the Reveal Votes button: a disabled button fires no
`onClick`, otherwise `handleRevealVotes` runs. -/
def revealButtonClick (r : Room) (s : AppState) : List RemoteCall :=
  if revealVotesDisabled r then [] else handleRevealVotesCalls s

/-- Pressing the Clear All Votes button: a disabled button fires no
`onClick`, otherwise `handleClearVotes` runs. -/
def clearButtonClick (r : Room) (s : AppState) : List RemoteCall :=
  if clearVotesDisabled r then [] else handleClearVotesCalls s

/-- `createRoom(roomId)`: on a non-ok HTTP response it throws; on an ok
response, `body` is the parse of the response JSON (`none` when the body
does not parse, in which case `response.json()` throws; `some none` when
the parsed data is missing a string `id`; `some (some i)` when it carries
the string id `i`).  Without a string id the requested id is returned. -/
def createRoom (requestedId : String) (ok : Bool) (body : Option (Option String)) :
    Except String String :=
  if ok then
    match body with
    | none => Except.error "Failed to parse AddRoom response"
    | some none => Except.ok requestedId
    | some (some i) => Except.ok i
  else Except.error "Failed to create room"

/-- The `showVotesState` value captured by the handler closures at their
single registration site: `setupSignalR` runs during the join click, and
on a fresh session that render still holds the initial `false`. -/
def registrationShowVotes : Bool := initialState.showVotes

/-- Concrete participant used in witnesses. -/
def userA : User := { id := "A", name := "Alice", vote := none }

/-- Concrete participant used in witnesses. -/
def userB : User := { id := "B", name := "Bob", vote := some "5" }

/-- Concrete room holding only `userA`. -/
def roomR1 : Room := { id := "R1", users := [("A", userA)] }

/-- Concrete join patch naming only `userB`, with a different room id. -/
def patchB : Room := { id := "RX", users := [("B", userB)] }

/-- Concrete joined session state. -/
def joinedState : AppState :=
  { initialState with roomId := some "R1", user := some userA, room := some roomR1,
                      hubConnected := true, currentPage := Page.planningPoker }

/-- Concrete joined state after votes were revealed. -/
def revealedJoinedState : AppState :=
  { joinedState with showVotes := true, isVoting := false, selectedVote := some "5" }

/-- Concrete room in which both participants hold a vote. -/
def roomVoted : Room :=
  { id := "R1", users := [("A", { userA with vote := some "3" }), ("B", userB)] }

/-- Concrete joined state over `roomVoted` with votes revealed. -/
def votedState : AppState :=
  { joinedState with room := some roomVoted, selectedVote := some "3",
                     isVoting := false, showVotes := true }

/- ## Lookup lemmas for the association-list record operations -/

lemma recLookup_append_of_left (l₁ l₂ : List (String × User)) (k : String) (u : User)
    (h : recLookup l₁ k = some u) : recLookup (l₁ ++ l₂) k = some u := by
  induction l₁ with
  | nil => simp [recLookup] at h
  | cons p l ih =>
    by_cases hp : p.1 = k
    · simp [recLookup, hp] at h ⊢
      exact h
    · simp [recLookup, hp] at h ⊢
      exact ih h

lemma recLookup_append_of_none (l₁ l₂ : List (String × User)) (k : String)
    (h : recLookup l₁ k = none) : recLookup (l₁ ++ l₂) k = recLookup l₂ k := by
  induction l₁ with
  | nil => simp
  | cons p l ih =>
    by_cases hp : p.1 = k
    · simp [recLookup, hp] at h
    · simp [recLookup, hp] at h ⊢
      exact ih h

lemma recLookup_filter_keep (base patch : List (String × User)) (k : String) (u : User)
    (hb : recLookup base k = some u) (hp : recLookup patch k = none) :
    recLookup (base.filter (fun p => (recLookup patch p.1).isNone)) k = some u := by
  induction base with
  | nil => simp [recLookup] at hb
  | cons q l ih =>
    by_cases hq : q.1 = k
    · have hkeep : (recLookup patch q.1).isNone = true := by
        rw [hq, hp]
        rfl
      simp [recLookup, hq] at hb
      simp [List.filter_cons, hkeep, hp, recLookup, hq, hb]
    · have hb' : recLookup l k = some u := by simpa [recLookup, hq] using hb
      cases hfq : (recLookup patch q.1).isNone with
      | false => simpa [List.filter_cons, hfq] using ih hb'
      | true => simpa [List.filter_cons, hfq, recLookup, hq] using ih hb'

lemma recLookup_merge_of_base (base patch : List (String × User)) (k : String) (u : User)
    (hb : recLookup base k = some u) (hp : recLookup patch k = none) :
    recLookup (recordMerge base patch) k = some u := by
  unfold recordMerge
  exact recLookup_append_of_left _ _ _ _ (recLookup_filter_keep base patch k u hb hp)

lemma recLookup_filter_none (base patch : List (String × User)) (k : String) (u : User)
    (hp : recLookup patch k = some u) :
    recLookup (base.filter (fun p => (recLookup patch p.1).isNone)) k = none := by
  induction base with
  | nil => simp [recLookup]
  | cons q l ih =>
    by_cases hq : q.1 = k
    · have hdrop : (recLookup patch q.1).isNone = false := by
        rw [hq, hp]
        rfl
      simpa [List.filter_cons, hdrop] using ih
    · cases hfq : (recLookup patch q.1).isNone with
      | false => simpa [List.filter_cons, hfq] using ih
      | true => simpa [List.filter_cons, hfq, recLookup, hq] using ih

lemma recLookup_merge_of_patch (base patch : List (String × User)) (k : String) (u : User)
    (hp : recLookup patch k = some u) :
    recLookup (recordMerge base patch) k = some u := by
  unfold recordMerge
  rw [recLookup_append_of_none _ _ _ (recLookup_filter_none base patch k u hp)]
  exact hp

lemma recordDelete_of_absent (l : List (String × User)) (k : String)
    (h : recLookup l k = none) : recordDelete l k = l := by
  induction l with
  | nil => simp [recordDelete]
  | cons p l ih =>
    by_cases hp : p.1 = k
    · simp [recLookup, hp] at h
    · simp [recLookup, hp] at h
      simp [recordDelete, hp, ih h]

lemma recLookup_recordDelete_self (l : List (String × User)) (k : String) :
    recLookup (recordDelete l k) k = none := by
  induction l with
  | nil => simp [recordDelete, recLookup]
  | cons p l ih =>
    by_cases hp : p.1 = k
    · simpa [recordDelete, hp] using ih
    · simpa [recordDelete, hp, recLookup] using ih

lemma recLookup_recordDelete_other (l : List (String × User)) (k k2 : String) (h : k2 ≠ k) :
    recLookup (recordDelete l k) k2 = recLookup l k2 := by
  induction l with
  | nil => simp [recordDelete]
  | cons p l ih =>
    by_cases hp : p.1 = k
    · have hk2 : ¬ p.1 = k2 := by
        rw [hp]
        exact fun hh => h hh.symm
      have hkk2 : ¬ k = k2 := fun hh => h hh.symm
      simp [recordDelete, hp, recLookup, hk2, hkk2, ih]
    · by_cases hp2 : p.1 = k2
      · simp [recordDelete, hp, recLookup, hp2, h]
      · simp [recordDelete, hp, recLookup, hp2, ih]

lemma recLookup_setMap (l : List (String × User)) (k v : String) (u : User)
    (h : recLookup l k = some u) :
    recLookup (l.map (fun p => if p.1 = k then (p.1, { p.2 with vote := some v }) else p)) k
      = some { u with vote := some v } := by
  induction l with
  | nil => simp [recLookup] at h
  | cons p l ih =>
    by_cases hp : p.1 = k
    · simp [recLookup, hp] at h
      simp [List.map_cons, hp, recLookup, h]
    · simp [recLookup, hp] at h
      simp [List.map_cons, hp, recLookup, ih h]

lemma recLookup_setMap_other (l : List (String × User)) (k v k2 : String) (h : k2 ≠ k) :
    recLookup (l.map (fun p => if p.1 = k then (p.1, { p.2 with vote := some v }) else p)) k2
      = recLookup l k2 := by
  induction l with
  | nil => simp
  | cons p l ih =>
    by_cases hp : p.1 = k
    · have hk2 : ¬ p.1 = k2 := by
        rw [hp]
        exact fun hh => h hh.symm
      have hkk2 : ¬ k = k2 := fun hh => h hh.symm
      simp [List.map_cons, hp, recLookup, hk2, hkk2, ih]
    · by_cases hp2 : p.1 = k2
      · simp [List.map_cons, hp, recLookup, hp2, h]
      · simp [List.map_cons, hp, recLookup, hp2, ih]

lemma recLookup_clearVotes (l : List (String × User)) (k : String) :
    recLookup (clearVotes l) k = (recLookup l k).map (fun u => { u with vote := none }) := by
  induction l with
  | nil => simp [clearVotes, recLookup]
  | cons p l ih =>
    by_cases hp : p.1 = k
    · simp [clearVotes, List.map_cons, recLookup, hp]
    · simp only [clearVotes, List.map_cons] at ih ⊢
      simp [recLookup, hp, ih]

/- ## Claims -/

/-- Claim C1, evaluated at the failing input.  The claim says a second
arrival of the votes-revealed event moves the visibility state back to
Collecting (a pure toggle by arrival count).  In the program the
`VotesRevealed` closure negates the `showVotesState` value captured at
its single registration, which on a fresh session is `false`: so every
arrival writes the constant `true`.  Starting from the initial Collecting
state, the first arrival shows the votes and disables voting as claimed,
but the second arrival leaves the votes shown — the state never returns
to Collecting, so the claimed toggle fails while the code plainly intends
one (the source writes the negation of the flag, and the button reads
Hide Votes while the votes are shown). -/
theorem claim_C1_code_behavior :
    (votesRevealedHandler registrationShowVotes initialState).showVotes = true ∧
    (votesRevealedHandler registrationShowVotes initialState).isVoting = false ∧
    (votesRevealedHandler registrationShowVotes
        (votesRevealedHandler registrationShowVotes initialState)).showVotes = true ∧
    (votesRevealedHandler registrationShowVotes
        (votesRevealedHandler registrationShowVotes initialState)).isVoting = false :=
  ⟨rfl, rfl, rfl, rfl⟩

/-- Claim C2.  With a non-empty local replica, the `UserJoined` handler
merges the incoming partial room into the replica: the resulting room id
is the previously known local id (the patch id is ignored), every locally
known participant whose id the patch does not mention keeps its local
entry, and every participant the patch names is present with the patch
value. -/
theorem claim_C2 (prev patch : Room) (s : AppState) (hs : s.room = some prev) :
    (userJoinedHandler patch s).room =
      some { id := prev.id, users := recordMerge prev.users patch.users } ∧
    (∀ k u, recLookup patch.users k = none → recLookup prev.users k = some u →
        recLookup (recordMerge prev.users patch.users) k = some u) ∧
    (∀ k u, recLookup patch.users k = some u →
        recLookup (recordMerge prev.users patch.users) k = some u) := by
  refine ⟨?_, ?_, ?_⟩
  · simp [userJoinedHandler, roomAfterUserJoined, hs]
  · intro k u hp hb
    exact recLookup_merge_of_base prev.users patch.users k u hb hp
  · intro k u hp
    exact recLookup_merge_of_patch prev.users patch.users k u hp

/-- Claim C2 witness: merging the patch that names only `userB` (and
carries a different room id) into the replica holding `userA` keeps the
room id `R1`, keeps `userA` and adds `userB`. -/
theorem claim_C2_witness :
    (userJoinedHandler patchB joinedState).room =
      some { id := roomR1.id, users := recordMerge roomR1.users patchB.users } ∧
    recLookup (recordMerge roomR1.users patchB.users) "A" = some userA ∧
    recLookup (recordMerge roomR1.users patchB.users) "B" = some userB :=
  ⟨(claim_C2 roomR1 patchB joinedState rfl).1,
   (claim_C2 roomR1 patchB joinedState rfl).2.1 "A" userA (by decide) (by decide),
   (claim_C2 roomR1 patchB joinedState rfl).2.2 "B" userB (by decide)⟩

/-- Claim C3 (amended).  After `handleLeaveRoom`, whatever the outcome of
the remote leave invocation, the local session (`roomId`, `user`,
connection handle), the room replica, the selected vote and the error are
reset and `isVoting` is back to `true`, with the app on the join page;
the remote outcome does not change the resulting state at all.  However
the shown-votes flag is left at its prior value rather than reset to
hidden: the code never calls `setShowVotesState` during leave. -/
theorem claim_C3_amended (s : AppState) (remoteOk : Bool) :
    (handleLeaveRoom remoteOk s).1.roomId = none ∧
    (handleLeaveRoom remoteOk s).1.user = none ∧
    (handleLeaveRoom remoteOk s).1.room = none ∧
    (handleLeaveRoom remoteOk s).1.hubConnected = false ∧
    (handleLeaveRoom remoteOk s).1.selectedVote = none ∧
    (handleLeaveRoom remoteOk s).1.error = none ∧
    (handleLeaveRoom remoteOk s).1.isVoting = true ∧
    (handleLeaveRoom remoteOk s).1.currentPage = Page.createJoin ∧
    (handleLeaveRoom remoteOk s).1.showVotes = s.showVotes ∧
    (handleLeaveRoom false s).1 = (handleLeaveRoom true s).1 :=
  ⟨rfl, rfl, rfl, rfl, rfl, rfl, rfl, rfl, rfl, rfl⟩

/-- Claim C3 counterexample.  Leaving from a reachable joined state in
which votes are currently revealed leaves the shown-votes flag `true`,
while the initial value of the visibility machine is hidden (`false`): so
the claim that the visibility state machine is reset to its initial
votes-hidden value on leave is false at this input. -/
theorem claim_C3_counterexample :
    (handleLeaveRoom true revealedJoinedState).1.showVotes = true ∧
    initialState.showVotes = false :=
  ⟨rfl, rfl⟩

/-- Claim C4.  `handleVote` makes no remote call and leaves the state
unchanged whenever `isVoting` is false; in a live session with `isVoting`
true it records the selection optimistically and invokes `SendVote`, and
on a failed invoke the selection is rolled back to absent and an error is
surfaced. -/
theorem claim_C4 (s : AppState) (v : String) :
    (s.isVoting = false → ∀ remoteOk : Bool, handleVote v remoteOk s = (s, [])) ∧
    (∀ r u, s.roomId = some r → s.user = some u → s.hubConnected = true →
        s.isVoting = true →
        handleVote v true s =
          ({ s with selectedVote := some v }, [RemoteCall.sendVote r u.id v]) ∧
        handleVote v false s =
          ({ s with selectedVote := none, error := some "Failed to send vote" },
           [RemoteCall.sendVote r u.id v])) := by
  constructor
  · intro hnv remoteOk
    cases hr : s.roomId with
    | none => simp [handleVote, hr]
    | some r =>
      cases hu : s.user with
      | none => simp [handleVote, hr, hu]
      | some u => simp [handleVote, hr, hu, hnv]
  · intro r u hr hu hh hv
    constructor
    · simp [handleVote, hr, hu, hh, hv]
    · simp [handleVote, hr, hu, hh, hv]

/-- Claim C4 witness: in the concrete joined state a vote of `5` is
recorded and sent; with a failing remote call the selection is rolled
back and an error set; with voting disabled nothing happens. -/
theorem claim_C4_witness :
    handleVote "5" true joinedState =
      ({ joinedState with selectedVote := some "5" }, [RemoteCall.sendVote "R1" "A" "5"]) ∧
    handleVote "5" false joinedState =
      ({ joinedState with selectedVote := none, error := some "Failed to send vote" },
       [RemoteCall.sendVote "R1" "A" "5"]) ∧
    handleVote "5" true revealedJoinedState = (revealedJoinedState, []) :=
  ⟨((claim_C4 joinedState "5").2 "R1" userA rfl rfl rfl rfl).1,
   ((claim_C4 joinedState "5").2 "R1" userA rfl rfl rfl rfl).2,
   (claim_C4 revealedJoinedState "5").1 rfl true⟩

/-- Claim C6.  The all-votes-cleared handler sets every vote in the
replica to absent while every participant id maps to the same entry with
only the vote cleared (so the participant set, ids and display names are
unchanged), discards the local selection, and restores hidden votes with
voting enabled. -/
theorem claim_C6 (s : AppState) (r : Room) (hs : s.room = some r) :
    (allVotesClearedHandler s).room = some { r with users := clearVotes r.users } ∧
    (∀ k, recLookup (clearVotes r.users) k
        = (recLookup r.users k).map (fun u => { u with vote := none })) ∧
    (allVotesClearedHandler s).selectedVote = none ∧
    (allVotesClearedHandler s).isVoting = true ∧
    (allVotesClearedHandler s).showVotes = false := by
  refine ⟨?_, ?_, rfl, rfl, rfl⟩
  · simp [allVotesClearedHandler, hs]
  · intro k
    exact recLookup_clearVotes r.users k

/-- Claim C6 witness: clearing the concrete voted room leaves both
participants present with absent votes and resets selection and
visibility. -/
theorem claim_C6_witness :
    (allVotesClearedHandler votedState).room =
      some { roomVoted with users := clearVotes roomVoted.users } ∧
    recLookup (clearVotes roomVoted.users) "B" = some { userB with vote := none } ∧
    (allVotesClearedHandler votedState).selectedVote = none ∧
    (allVotesClearedHandler votedState).isVoting = true ∧
    (allVotesClearedHandler votedState).showVotes = false :=
  ⟨(claim_C6 votedState roomVoted rfl).1,
   by
     rw [(claim_C6 votedState roomVoted rfl).2.1 "B"]
     decide,
   (claim_C6 votedState roomVoted rfl).2.2.1,
   (claim_C6 votedState roomVoted rfl).2.2.2.1,
   (claim_C6 votedState roomVoted rfl).2.2.2.2⟩

/-- Claim C7.  Applying a vote for an unknown participant id leaves the
users record exactly unchanged (no entry is inserted and no error
raised); for a known id only that entry has its vote set, every other id
maps to its previous value; and the handler rewrites the replica room
with exactly this record update. -/
theorem claim_C7 (l : List (String × User)) (k v : String) :
    (recLookup l k = none → recordSetVote l k v = l) ∧
    (∀ u, recLookup l k = some u →
        recLookup (recordSetVote l k v) k = some { u with vote := some v } ∧
        ∀ k2, k2 ≠ k → recLookup (recordSetVote l k v) k2 = recLookup l k2) ∧
    (∀ s : AppState, ∀ r : Room, s.room = some r →
        (voteReceivedHandler k v s).room = some { r with users := recordSetVote r.users k v }) := by
  refine ⟨?_, ?_, ?_⟩
  · intro h
    simp [recordSetVote, h]
  · intro u hu
    have hmap : recordSetVote l k v
        = l.map (fun p => if p.1 = k then (p.1, { p.2 with vote := some v }) else p) := by
      simp [recordSetVote, hu]
    constructor
    · rw [hmap]
      exact recLookup_setMap l k v u hu
    · intro k2 hk2
      rw [hmap]
      exact recLookup_setMap_other l k v k2 hk2
  · intro s r hs
    simp [voteReceivedHandler, hs]

/-- Claim C7 witness: a vote for the unknown id `Z` leaves the concrete
users record unchanged, and a vote for the known id `A` sets exactly that
vote. -/
theorem claim_C7_witness :
    recordSetVote roomR1.users "Z" "8" = roomR1.users ∧
    recLookup (recordSetVote roomR1.users "A" "8") "A" = some { userA with vote := some "8" } :=
  ⟨(claim_C7 roomR1.users "Z" "8").1 (by decide),
   ((claim_C7 roomR1.users "A" "8").2.1 userA (by decide)).1⟩

/-- Claim C8.  Deleting a participant id removes exactly that entry: the
deleted id no longer resolves, every other id keeps its previous value,
deleting an id that is not present is a no-op returning the record
unchanged, and the handler rewrites the replica room with exactly this
record update. -/
theorem claim_C8 (l : List (String × User)) (k : String) :
    (recLookup l k = none → recordDelete l k = l) ∧
    recLookup (recordDelete l k) k = none ∧
    (∀ k2, k2 ≠ k → recLookup (recordDelete l k) k2 = recLookup l k2) ∧
    (∀ s : AppState, ∀ r : Room, s.room = some r →
        (userLeftHandler k s).room = some { r with users := recordDelete r.users k }) := by
  refine ⟨recordDelete_of_absent l k, recLookup_recordDelete_self l k, ?_, ?_⟩
  · intro k2 h
    exact recLookup_recordDelete_other l k k2 h
  · intro s r hs
    simp [userLeftHandler, hs]

/-- Claim C8 witness: deleting the unknown id `Z` leaves the concrete
users record unchanged; deleting the present id `A` removes it. -/
theorem claim_C8_witness :
    recordDelete roomR1.users "Z" = roomR1.users ∧
    recLookup (recordDelete roomR1.users "A") "A" = none :=
  ⟨(claim_C8 roomR1.users "Z").1 (by decide), (claim_C8 roomR1.users "A").2.1⟩

/-- Claim C9.  When every participant vote in the room snapshot is
absent, the Reveal Votes and Clear All Votes buttons are disabled, so a
press of either fires no `RevealVotes` or `ClearAllVotes` remote
invocation. -/
theorem claim_C9 (r : Room) (s : AppState) (h : ∀ p ∈ r.users, p.2.vote = none) :
    revealVotesDisabled r = true ∧ clearVotesDisabled r = true ∧
    revealButtonClick r s = [] ∧ clearButtonClick r s = [] := by
  have hall : allVotesNull r = true := by
    simp only [allVotesNull, List.all_eq_true]
    intro p hp
    simp [h p hp]
  refine ⟨hall, hall, ?_, ?_⟩
  · simp [revealButtonClick, revealVotesDisabled, hall]
  · simp [clearButtonClick, clearVotesDisabled, hall]

/-- Claim C9 witness: in the concrete room where no vote has been cast,
both buttons are disabled and fire no remote call. -/
theorem claim_C9_witness :
    revealVotesDisabled roomR1 = true ∧ clearVotesDisabled roomR1 = true ∧
    revealButtonClick roomR1 joinedState = [] ∧ clearButtonClick roomR1 joinedState = [] :=
  claim_C9 roomR1 joinedState (by decide)

/-- Claim C10.  On a success response whose body parses, `createRoom`
always returns a room id: the id carried by the body when it is a string,
and otherwise the id the caller requested (never an error and never an
absent value). -/
theorem claim_C10 (requestedId : String) (body : Option String) :
    createRoom requestedId true (some body) = Except.ok (body.getD requestedId) := by
  cases body with
  | none => rfl
  | some i => rfl

end PlanningPoker
